import Mathlib

/-!
Verification of the enrollment-progress and daily-metrics subsystem of the
e-learning microservice platform.  The Python source (course service CRUD
layer, enrollment model, analytics event recorder, redis cache wrapper) is
shallowly embedded: tables become lists of records, the ORM session's
buffered writes become explicit state transitions applied at commit points,
and machine integers become Nat/Int.  Server-generated timestamps are passed
in as explicit `now` arguments; SQLAlchemy uuid ids become Nat ids.  The
float `progress_percentage` (always a value rounded to 2 decimal places) is
embedded exactly as a natural number of hundredths of a percent, so the
source's 50.0 is 5000 here and the completion threshold 100.0 is 10000.
-/

/-- Replace the first element satisfying `p` by `x` (models mutating the row
object returned by a `.first()` query and flushing it). -/
def replaceFirst (p : α → Bool) (x : α) : List α → List α
  | [] => []
  | y :: ys => if p y then x :: ys else y :: replaceFirst p x ys

/- ===================== Analytics service ===================== -/

/-- EventType enum from analytics-service app/models/analytics.py. -/
inductive EventType where
  | course_view
  | course_enroll
deriving DecidableEq, Repr

/-- AnalyticsEvent row (audit trail); server-side timestamps omitted. -/
structure AnalyticsEvent where
  id : Nat
  event_type : EventType
  user_id : String
  course_id : Nat
  user_role : String
deriving DecidableEq, Repr

/-- CourseDailyMetric row: per-course per-day counters. -/
structure CourseDailyMetric where
  course_id : Nat
  metric_date : Nat
  views_count : Nat
  enrollments_count : Nat
deriving DecidableEq, Repr

/-- Durable state of the analytics database. -/
structure AnalyticsDB where
  events : List AnalyticsEvent
  metrics : List CourseDailyMetric
  nextEventId : Nat
deriving DecidableEq, Repr

/-- The metric lookup by (course_id, metric_date), `.first()` semantics. -/
def findMetric (db : AnalyticsDB) (cid day : Nat) : Option CourseDailyMetric :=
  db.metrics.find? (fun m => m.course_id == cid && m.metric_date == day)

/-- The counter increment of record_event: `views_count += 1` on a view,
else (elif course_enroll) `enrollments_count += 1`. -/
def bumpMetric (m : CourseDailyMetric) (ty : EventType) : CourseDailyMetric :=
  match ty with
  | .course_view => { m with views_count := m.views_count + 1 }
  | .course_enroll => { m with enrollments_count := m.enrollments_count + 1 }

/-- The AnalyticsEvent built at the top of record_event. -/
def mkEvent (db : AnalyticsDB) (cid : Nat) (uid role : String) (ty : EventType) :
    AnalyticsEvent :=
  { id := db.nextEventId, event_type := ty, user_id := uid,
    course_id := cid, user_role := role }

/-- Metrics table after record_event's upsert-and-increment step: if no row
for (course, day) exists one is created with both counters 0, then the
matching counter is incremented. -/
def metricsAfterEvent (db : AnalyticsDB) (cid day : Nat) (ty : EventType) :
    List CourseDailyMetric :=
  match findMetric db cid day with
  | some m =>
      replaceFirst (fun x => x.course_id == cid && x.metric_date == day)
        (bumpMetric m ty) db.metrics
  | none =>
      db.metrics ++ [bumpMetric (⟨cid, day, 0, 0⟩ : CourseDailyMetric) ty]

/-- Cache key for the global top-courses aggregate. -/
def topCoursesKey : String := "top_courses"

/-- Per-course metric cache key, `course_metrics:{course_id}`. -/
def courseMetricsKey (cid : Nat) : String :=
  "course_metrics:" ++ toString cid

/-- delete_cache from analytics-service app/core/redis.py: on a missing
client or a redis error (modelled by `ok = false`) the delete silently does
nothing; it never raises. -/
def delete_cache (cache : List String) (ok : Bool) (key : String) : List String :=
  if ok then cache.filter (fun k => k != key) else cache

/-- record_event from analytics-service app/routes/events.py.  The event
insert and the metric upsert/increment are buffered in the session and
applied by the single `db.commit()`; `commitOk = false` models a store
failure at that commit (exception propagates, nothing applied, the cache
invalidation lines are never reached).  `cacheOk1/cacheOk2` model the two
delete_cache calls succeeding or failing. -/
def record_event (db : AnalyticsDB) (cache : List String)
    (cid : Nat) (uid role : String) (day : Nat) (ty : EventType)
    (commitOk cacheOk1 cacheOk2 : Bool) :
    AnalyticsDB × List String × Option AnalyticsEvent :=
  let ev := mkEvent db cid uid role ty
  if commitOk then
    let db1 : AnalyticsDB :=
      { events := db.events ++ [ev],
        metrics := metricsAfterEvent db cid day ty,
        nextEventId := db.nextEventId + 1 }
    let cache1 := delete_cache cache cacheOk1 topCoursesKey
    let cache2 := delete_cache cache1 cacheOk2 (courseMetricsKey cid)
    (db1, cache2, some ev)
  else
    (db, cache, none)

/-- One record_event call per list entry (type, user_id, user_role), all for
the same course and day, each with a successful commit. -/
def record_events (db : AnalyticsDB) (cid day : Nat) :
    List (EventType × String × String) → AnalyticsDB
  | [] => db
  | c :: rest =>
      record_events (record_event db [] cid c.2.1 c.2.2 day c.1 true true true).1
        cid day rest

/-- The (views_count, enrollments_count) pair stored for (course, day),
(0, 0) if no row exists. -/
def metricCounts (db : AnalyticsDB) (cid day : Nat) : Nat × Nat :=
  match findMetric db cid day with
  | some m => (m.views_count, m.enrollments_count)
  | none => (0, 0)

/- ===================== Course service: data model ===================== -/

/-- Course row (the fields the enrollment subsystem touches). -/
structure Course where
  id : Nat
  instructor_id : String
  published : Bool
  total_enrollments : Int
deriving DecidableEq, Repr

/-- Lesson row (the fields the progress rollup touches). -/
structure Lesson where
  id : Nat
  course_id : Nat
  is_published : Bool
deriving DecidableEq, Repr

/-- Enrollment row from course-service app/models/enrollment.py. -/
structure Enrollment where
  id : Nat
  user_id : String
  course_id : Nat
  enrolled_at : Nat
  completed : Bool
  progress_percentage : Nat
  last_accessed_at : Nat
  completed_at : Option Nat
  total_time_spent_minutes : Int
  last_lesson_id : Option Nat
deriving DecidableEq, Repr

/-- LessonProgress row from course-service app/models/enrollment.py. -/
structure LessonProgress where
  enrollment_id : Nat
  lesson_id : Nat
  course_id : Nat
  completed : Bool
  time_spent_minutes : Int
  last_accessed_at : Nat
  completed_at : Option Nat
deriving DecidableEq, Repr

/-- Durable state of the course-service database. -/
structure DB where
  courses : List Course
  lessons : List Lesson
  enrollments : List Enrollment
  progresses : List LessonProgress
  nextEnrollmentId : Nat
deriving DecidableEq, Repr

/-- round((completed_lessons / total_lessons) * 100, 2) in hundredths of a
percent: round-half-up of 10000 * c / t, computed exactly as
floor((20000 * c + t) / (2 * t)).  (Python's round ties half to even; no
value in this development sits on a half-way tie.) -/
def roundPct (completed_lessons total_lessons : Nat) : Nat :=
  (20000 * completed_lessons + total_lessons) / (2 * total_lessons)

/-- Enrollment.update_progress from app/models/enrollment.py: when
total_lessons > 0 set the percentage to round((completed/total)*100, 2) and
derive completed / completed_at from it; when total_lessons = 0 mutate
nothing and return False. -/
def Enrollment.update_progress (e : Enrollment)
    (total_lessons completed_lessons : Nat) (now : Nat) : Enrollment × Bool :=
  if total_lessons > 0 then
    let p := roundPct completed_lessons total_lessons
    if p ≥ 10000 then
      ({ e with progress_percentage := p, completed := true,
                completed_at := some now }, true)
    else
      ({ e with progress_percentage := p, completed := false,
                completed_at := none }, true)
  else (e, false)

/- ===================== Course service: queries ===================== -/

/-- CRUDEnrollment.get: enrollment by id, `.first()` semantics. -/
def findEnrollment (l : List Enrollment) (eid : Nat) : Option Enrollment :=
  l.find? (fun e => e.id == eid)

/-- CRUDEnrollment.get_by_user_and_course. -/
def get_by_user_and_course (db : DB) (uid : String) (cid : Nat) :
    Option Enrollment :=
  db.enrollments.find? (fun e => e.user_id == uid && e.course_id == cid)

/-- Course lookup by id. -/
def findCourse (db : DB) (cid : Nat) : Option Course :=
  db.courses.find? (fun c => c.id == cid)

/-- CRUDLessonProgress.get_lesson_progress. -/
def get_lesson_progress (db : DB) (eid lid : Nat) : Option LessonProgress :=
  db.progresses.find? (fun p => p.enrollment_id == eid && p.lesson_id == lid)

/-- Count of published lessons of a course (the total_lessons query). -/
def countPublishedLessons (db : DB) (cid : Nat) : Nat :=
  db.lessons.countP (fun l => l.course_id == cid && l.is_published)

/-- Count of an enrollment's completed LessonProgress rows. -/
def countCompletedProgresses (l : List LessonProgress) (eid : Nat) : Nat :=
  l.countP (fun p => p.enrollment_id == eid && p.completed)

/- ===================== Course service: operations ===================== -/

/-- CRUDEnrollment.create, with its two commit points made explicit: the
returned list holds the durable state after each `db.commit()` in program
order (empty when the early idempotent return fires and nothing commits).
The first commit persists the new enrollment row; the second, issued only
when the course row is found, persists the total_enrollments increment. -/
def CRUDEnrollment.createStates (db : DB) (uid : String) (cid : Nat)
    (now : Nat) : List DB × Enrollment :=
  match get_by_user_and_course db uid cid with
  | some existing => ([], existing)
  | none =>
    let row : Enrollment :=
      { id := db.nextEnrollmentId, user_id := uid, course_id := cid,
        enrolled_at := now, completed := false, progress_percentage := 0,
        last_accessed_at := now, completed_at := none,
        total_time_spent_minutes := 0, last_lesson_id := none }
    let db1 : DB := { db with
      enrollments := db.enrollments ++ [row],
      nextEnrollmentId := db.nextEnrollmentId + 1 }
    match findCourse db1 cid with
    | some course =>
      let coursesAfter :=
        replaceFirst (fun c => c.id == cid)
          ({ course with total_enrollments := course.total_enrollments + 1 })
          db1.courses
      let db2 : DB := { db1 with courses := coursesAfter }
      ([db1, db2], row)
    | none => ([db1], row)

/-- CRUDEnrollment.create: final durable state and returned row. -/
def CRUDEnrollment.create (db : DB) (uid : String) (cid : Nat) (now : Nat) :
    DB × Enrollment :=
  let r := CRUDEnrollment.createStates db uid cid now
  (r.1.getLastD db, r.2)

/-- EnrollmentUpdate schema (exclude_unset dict modelled by Options). -/
structure EnrollmentUpdate where
  completed : Option Bool
  progress_percentage : Option Nat
  last_accessed_at : Option Nat
deriving DecidableEq, Repr

/-- CRUDEnrollment.update applied to the fetched row: if the update carries
progress_percentage, last_accessed_at is overwritten with now, and when the
new percentage is at least 100 completed/completed_at are forced on; no
field is cleared when the percentage drops below 100. -/
def CRUDEnrollment.update (e : Enrollment) (obj_in : EnrollmentUpdate)
    (now : Nat) : Enrollment :=
  match obj_in.progress_percentage with
  | some p =>
    let e1 := { e with completed := obj_in.completed.getD e.completed,
                       progress_percentage := p, last_accessed_at := now }
    if p ≥ 10000 then
      { e1 with completed := true, completed_at := some now }
    else e1
  | none =>
    { e with completed := obj_in.completed.getD e.completed,
             last_accessed_at := obj_in.last_accessed_at.getD e.last_accessed_at }

/-- CRUDEnrollment.delete: not-found returns False untouched; otherwise the
course counter is decremented only when strictly positive, the row is
deleted (lesson progresses cascade), and the transaction commits. -/
def CRUDEnrollment.delete (db : DB) (eid : Nat) : DB × Bool :=
  match findEnrollment db.enrollments eid with
  | none => (db, false)
  | some e =>
    let coursesAfter :=
      match findCourse db e.course_id with
      | some c =>
        if c.total_enrollments > 0 then
          replaceFirst (fun x => x.id == e.course_id)
            ({ c with total_enrollments := c.total_enrollments - 1 }) db.courses
        else db.courses
      | none => db.courses
    ({ db with
       courses := coursesAfter,
       enrollments := db.enrollments.eraseP (fun x => x.id == eid),
       progresses := db.progresses.filter (fun p => p.enrollment_id != eid) },
     true)

/-- CRUDEnrollment.record_access: refresh last_accessed_at only. -/
def CRUDEnrollment.record_access (db : DB) (eid : Nat) (now : Nat) :
    DB × Option Enrollment :=
  match findEnrollment db.enrollments eid with
  | none => (db, none)
  | some e =>
    let e1 := { e with last_accessed_at := now }
    ({ db with enrollments :=
        replaceFirst (fun x => x.id == eid) e1 db.enrollments }, some e1)

/-- Python truthiness of the Optional[int] time_spent_minutes argument. -/
def timeTruthy : Option Int → Bool
  | none => false
  | some t => t != 0

/-- The LessonProgress row written by update_lesson_progress: created fresh
when no row exists for (enrollment, lesson), otherwise the existing row with
completed overwritten by the argument, time accumulated, last_accessed_at
refreshed, and completed_at set only when completing with no prior
completed_at. -/
def CRUDLessonProgress.progressRowAfter (db : DB) (enrollment : Enrollment)
    (lid : Nat) (completed : Bool) (time_spent_minutes : Option Int)
    (now : Nat) : LessonProgress :=
  match get_lesson_progress db enrollment.id lid with
  | none =>
    { enrollment_id := enrollment.id, lesson_id := lid,
      course_id := enrollment.course_id, completed := completed,
      time_spent_minutes := time_spent_minutes.getD 0,
      last_accessed_at := now,
      completed_at := if completed then some now else none }
  | some p =>
    { p with
      completed := completed,
      last_accessed_at := now,
      time_spent_minutes := p.time_spent_minutes + time_spent_minutes.getD 0,
      completed_at :=
        if completed && p.completed_at == none then some now
        else p.completed_at }

/-- LessonProgress table once the write above is applied at commit. -/
def CRUDLessonProgress.progressesAfter (db : DB) (enrollment : Enrollment)
    (lid : Nat) (completed : Bool) (time_spent_minutes : Option Int)
    (now : Nat) : List LessonProgress :=
  let progress :=
    CRUDLessonProgress.progressRowAfter db enrollment lid completed
      time_spent_minutes now
  match get_lesson_progress db enrollment.id lid with
  | none => db.progresses ++ [progress]
  | some _ =>
    replaceFirst
      (fun x => x.enrollment_id == enrollment.id && x.lesson_id == lid)
      progress db.progresses

/-- The Enrollment row written by update_lesson_progress: the aggregate is
recomputed from the count of published lessons and the count of completed
LessonProgress rows.  The session is created with autoflush=False
(database.py) and update_lesson_progress issues no flush before its count
queries, so the count sees only the pre-call committed rows — the pending
progress write of this very call is invisible to the rollup, which
therefore lags one call behind.  Time is accumulated when the argument is
truthy, and last_accessed_at / last_lesson_id are stamped. -/
def CRUDLessonProgress.enrollmentRowAfter (db : DB) (enrollment : Enrollment)
    (lid : Nat) (completed : Bool) (time_spent_minutes : Option Int)
    (now : Nat) : Enrollment :=
  let total_lessons := countPublishedLessons db enrollment.course_id
  let completed_lessons := countCompletedProgresses db.progresses enrollment.id
  let e1 := (enrollment.update_progress total_lessons completed_lessons now).1
  let e2 :=
    if timeTruthy time_spent_minutes then
      { e1 with total_time_spent_minutes :=
          e1.total_time_spent_minutes + time_spent_minutes.getD 0 }
    else e1
  { e2 with last_accessed_at := now, last_lesson_id := some lid }

/-- CRUDLessonProgress.update_lesson_progress from app/crud/enrollment.py.
Takes the fetched enrollment row, gets or creates the LessonProgress row,
recounts published lessons and completed progresses — with autoflush=False
and no explicit flush, those counts run against the pre-call committed
rows, not the pending write — recomputes the enrollment aggregate via
Enrollment.update_progress, accumulates time when the argument is truthy,
stamps last_accessed_at / last_lesson_id, and commits.  Returns
(state, progress row, is_new). -/
def CRUDLessonProgress.update_lesson_progress (db : DB)
    (enrollment : Enrollment) (lid : Nat) (completed : Bool)
    (time_spent_minutes : Option Int) (now : Nat) :
    DB × LessonProgress × Bool :=
  let progressesAfter :=
    CRUDLessonProgress.progressesAfter db enrollment lid completed
      time_spent_minutes now
  let e3 :=
    CRUDLessonProgress.enrollmentRowAfter db enrollment lid completed
      time_spent_minutes now
  let enrollmentsAfter :=
    replaceFirst (fun x => x.id == enrollment.id) e3 db.enrollments
  ({ db with progresses := progressesAfter, enrollments := enrollmentsAfter },
   CRUDLessonProgress.progressRowAfter db enrollment lid completed
     time_spent_minutes now,
   (get_lesson_progress db enrollment.id lid).isNone)

/- ===================== API layer and sequence drivers ===================== -/

/-- CRUDEnrollment.create with an explicit interleaving point: after the
duplicate check sees no row, a concurrent create for the same key may have
committed `winner` (the race of §5 of the spec).  The store's uniqueness
constraint then rejects our insert at commit; the source has no
except-clause around it, so the violation escapes as an error.  With
`winner = none` this is exactly the sequential CRUDEnrollment.create. -/
def CRUDEnrollment.createRaced (db : DB) (uid : String) (cid : Nat)
    (now : Nat) (winner : Option Enrollment) :
    Except String (DB × Enrollment) :=
  match get_by_user_and_course db uid cid with
  | some existing => .ok (db, existing)
  | none =>
    let dbi : DB :=
      match winner with
      | some w => { db with enrollments := db.enrollments ++ [w] }
      | none => db
    if (get_by_user_and_course dbi uid cid).isSome then
      .error ("IntegrityError: duplicate key value violates unique constraint unique_user_course_enrollment")
    else
      .ok (CRUDEnrollment.create dbi uid cid now)

/-- enroll_in_course from app/api/v1/enrollments.py: 404 when the course is
missing, 403 when unpublished for a plain student, idempotent return of an
existing enrollment, otherwise create — any exception out of the create is
converted to an HTTP 500 response. -/
def enroll_in_course (db : DB) (uid role : String) (cid : Nat) (now : Nat)
    (winner : Option Enrollment) : Except (Nat × String) (DB × Enrollment) :=
  match findCourse db cid with
  | none => .error (404, "Course not found")
  | some c =>
    if !c.published && role != "instructor" && role != "admin" then
      .error (403, "Course is not published")
    else
      match get_by_user_and_course db uid cid with
      | some existing => .ok (db, existing)
      | none =>
        match CRUDEnrollment.createRaced db uid cid now winner with
        | .ok r => .ok r
        | .error e => .error (500, "Failed to enroll in course: " ++ e)

/-- N sequential CRUDEnrollment.create calls for one (user, course), one
per timestamp in the list; returns the final state and all returned rows. -/
def create_many (db : DB) (uid : String) (cid : Nat) :
    List Nat → DB × List Enrollment
  | [] => (db, [])
  | now :: rest =>
    let r := CRUDEnrollment.create db uid cid now
    let r2 := create_many r.1 uid cid rest
    (r2.1, r.2 :: r2.2)

/-- One update_lesson_progress request: lesson, completed flag, optional
time, timestamp. -/
structure ProgressCall where
  lesson_id : Nat
  completed : Bool
  time_spent_minutes : Option Int
  now : Nat
deriving DecidableEq, Repr

/-- A sequence of update_lesson_progress requests against one enrollment id,
each fetching the current enrollment row first (requests against a missing
enrollment are rejected by the API and change nothing). -/
def apply_progress_calls (db : DB) (eid : Nat) : List ProgressCall → DB
  | [] => db
  | c :: rest =>
    match findEnrollment db.enrollments eid with
    | some e =>
      apply_progress_calls
        (CRUDLessonProgress.update_lesson_progress db e c.lesson_id
          c.completed c.time_spent_minutes c.now).1 eid rest
    | none => apply_progress_calls db eid rest

/-- Sum of time_spent_minutes over the LessonProgress rows of one
enrollment. -/
def sumTime (eid : Nat) : List LessonProgress → Int
  | [] => 0
  | p :: ps =>
    (if p.enrollment_id = eid then p.time_spent_minutes else 0) + sumTime eid ps

/-- The §3 Enrollment invariant: completed iff the percentage is at least
100, and completed_at is set iff completed. -/
def enrollmentInvariant (e : Enrollment) : Prop :=
  (e.completed = true ↔ e.progress_percentage ≥ 10000) ∧
  (e.completed_at ≠ none ↔ e.completed = true)

instance (e : Enrollment) : Decidable (enrollmentInvariant e) := by
  unfold enrollmentInvariant
  infer_instance

/- ===================== Concrete inputs for the claims ===================== -/

/-- Fresh enrollment of user u1 in course 1 (defaults as created). -/
def C1e0 : Enrollment :=
  { id := 1, user_id := "u1", course_id := 1, enrolled_at := 0,
    completed := false, progress_percentage := 0, last_accessed_at := 0,
    completed_at := none, total_time_spent_minutes := 0,
    last_lesson_id := none }

/-- Course 1 with two published lessons and the fresh enrollment. -/
def C1db : DB :=
  { courses := [{ id := 1, instructor_id := "i1", published := true,
                  total_enrollments := 1 }],
    lessons := [{ id := 10, course_id := 1, is_published := true },
                { id := 11, course_id := 1, is_published := true }],
    enrollments := [C1e0], progresses := [], nextEnrollmentId := 2 }

/-- State after completing lesson 10 (10 minutes). -/
def C1db1 : DB :=
  (CRUDLessonProgress.update_lesson_progress C1db C1e0 10 true (some 10) 1).1

/-- The enrollment row read back after the first completion. -/
def C1e1 : Enrollment := (findEnrollment C1db1.enrollments 1).getD C1e0

/-- State after additionally completing lesson 11 (5 minutes). -/
def C1db2 : DB :=
  (CRUDLessonProgress.update_lesson_progress C1db1 C1e1 11 true (some 5) 2).1

/-- The enrollment row read back after the second completion. -/
def C1e2 : Enrollment := (findEnrollment C1db2.enrollments 1).getD C1e0

/-- A database with a published course and no enrollments. -/
def C2db : DB :=
  { courses := [{ id := 1, instructor_id := "i1", published := true,
                  total_enrollments := 0 }],
    lessons := [], enrollments := [], progresses := [], nextEnrollmentId := 1 }

/-- Two view events and one enroll event for course 1 on day 7. -/
def C3calls : List (EventType × String × String) :=
  [(EventType.course_view, "u1", "learner"),
   (EventType.course_view, "u2", "learner"),
   (EventType.course_enroll, "u1", "learner")]

/-- Empty analytics database. -/
def C3db : AnalyticsDB := { events := [], metrics := [], nextEventId := 0 }

/-- A valid fresh enrollment (invariant holds: not completed, 0 %). -/
def C5e : Enrollment :=
  { id := 1, user_id := "u1", course_id := 1, enrolled_at := 0,
    completed := false, progress_percentage := 0, last_accessed_at := 0,
    completed_at := none, total_time_spent_minutes := 0,
    last_lesson_id := none }

/-- An EnrollmentUpdate that sets only the completed flag. -/
def C5upd : EnrollmentUpdate :=
  { completed := some true, progress_percentage := none,
    last_accessed_at := none }

/-- The competing enrollment row committed by the concurrent winner of the
create race for ("u1", course 1). -/
def C7winner : Enrollment :=
  { id := 5, user_id := "u1", course_id := 1, enrolled_at := 3,
    completed := false, progress_percentage := 0, last_accessed_at := 3,
    completed_at := none, total_time_spent_minutes := 0,
    last_lesson_id := none }

/-- Published course 1, no enrollment yet, for the create race. -/
def C7db : DB :=
  { courses := [{ id := 1, instructor_id := "i1", published := true,
                  total_enrollments := 0 }],
    lessons := [], enrollments := [], progresses := [], nextEnrollmentId := 9 }

/-- A completed LessonProgress row for (enrollment 1, lesson 10). -/
def C8p : LessonProgress :=
  { enrollment_id := 1, lesson_id := 10, course_id := 1, completed := true,
    time_spent_minutes := 10, last_accessed_at := 1, completed_at := some 1 }

/-- Database in which enrollment 1 has completed lesson 10 of course 1. -/
def C8db : DB :=
  { courses := [{ id := 1, instructor_id := "i1", published := true,
                  total_enrollments := 1 }],
    lessons := [{ id := 10, course_id := 1, is_published := true }],
    enrollments := [C1e0], progresses := [C8p], nextEnrollmentId := 2 }

/-- Published course 1 with zero enrollments, for the create commit trace. -/
def C9db : DB :=
  { courses := [{ id := 1, instructor_id := "i1", published := true,
                  total_enrollments := 0 }],
    lessons := [], enrollments := [], progresses := [], nextEnrollmentId := 9 }

/-- The durable state right after the first commit of the create for
("u1", course 1) on C9db. -/
def C9afterFirstCommit : DB :=
  ((CRUDEnrollment.createStates C9db "u1" 1 5).1).headD C9db

/-- An enrollment of user u1 in course 1 with one progress row, for the
delete claim. -/
def C10db : DB :=
  { courses := [{ id := 1, instructor_id := "i1", published := true,
                  total_enrollments := 1 }],
    lessons := [{ id := 10, course_id := 1, is_published := true }],
    enrollments := [C1e0], progresses := [C8p], nextEnrollmentId := 2 }

/- ===================== Helper lemmas ===================== -/

theorem replaceFirst_find? {p : α → Bool} {l : List α} {a : α} (x : α)
    (h : l.find? p = some a) (hx : p x = true) :
    (replaceFirst p x l).find? p = some x := by
  induction l with
  | nil => simp at h
  | cons y ys ih =>
    by_cases hy : p y = true
    · simp only [replaceFirst, if_pos hy]
      exact List.find?_cons_of_pos _ hx
    · rw [List.find?_cons_of_neg _ hy] at h
      simp only [replaceFirst, if_neg hy]
      rw [List.find?_cons_of_neg _ hy]
      exact ih h

theorem mem_replaceFirst {p : α → Bool} {x y : α} {l : List α}
    (h : y ∈ replaceFirst p x l) : y ∈ l ∨ y = x := by
  induction l with
  | nil => simp [replaceFirst] at h
  | cons z zs ih =>
    simp only [replaceFirst] at h
    by_cases hz : p z = true
    · rw [if_pos hz] at h
      rcases List.mem_cons.mp h with h1 | h1
      · exact Or.inr h1
      · exact Or.inl (List.mem_cons_of_mem _ h1)
    · rw [if_neg hz] at h
      rcases List.mem_cons.mp h with h1 | h1
      · exact Or.inl (h1 ▸ List.mem_cons_self z zs)
      · rcases ih h1 with h2 | h2
        · exact Or.inl (List.mem_cons_of_mem _ h2)
        · exact Or.inr h2

theorem replaceFirst_ne {p : α → Bool} {l : List α} {a x : α}
    (h : l.find? p = some a) (hne : x ≠ a) : replaceFirst p x l ≠ l := by
  induction l with
  | nil => simp at h
  | cons y ys ih =>
    by_cases hy : p y = true
    · rw [List.find?_cons_of_pos _ hy] at h
      injection h with h2
      simp only [replaceFirst, if_pos hy]
      intro hc
      exact hne (Eq.trans (((List.cons.injEq _ _ _ _).mp hc).1) h2)
    · rw [List.find?_cons_of_neg _ hy] at h
      simp only [replaceFirst, if_neg hy]
      intro hc
      exact ih h ((List.cons.injEq _ _ _ _).mp hc).2

theorem find?_append_singleton {p : α → Bool} {l : List α} (x : α)
    (h : l.find? p = none) :
    (l ++ [x]).find? p = if p x then some x else none := by
  induction l with
  | nil =>
    simp only [List.nil_append]
    by_cases hx : p x = true
    · rw [if_pos hx]; exact List.find?_cons_of_pos _ hx
    · rw [if_neg hx, List.find?_cons_of_neg _ hx]; rfl
  | cons y ys ih =>
    have hy : ¬ p y = true := by
      intro hy
      rw [List.find?_cons_of_pos _ hy] at h
      exact Option.noConfusion h
    rw [List.find?_cons_of_neg _ hy] at h
    rw [List.cons_append, List.find?_cons_of_neg _ hy]
    exact ih h

theorem find?_eraseP_of_countP_le_one {p : α → Bool} {l : List α}
    (h : l.countP p ≤ 1) : (l.eraseP p).find? p = none := by
  induction l with
  | nil => simp
  | cons y ys ih =>
    by_cases hy : p y = true
    · rw [List.eraseP_cons_of_pos hy]
      rw [List.countP_cons_of_pos _ _ hy] at h
      have h0 : ys.countP p = 0 := by omega
      exact List.find?_eq_none.mpr (List.countP_eq_zero.mp h0)
    · rw [List.eraseP_cons_of_neg hy, List.find?_cons_of_neg _ hy]
      rw [List.countP_cons_of_neg _ _ hy] at h
      exact ih h

theorem sumTime_append (eid : Nat) (l : List LessonProgress)
    (x : LessonProgress) :
    sumTime eid (l ++ [x]) =
      sumTime eid l +
        (if x.enrollment_id = eid then x.time_spent_minutes else 0) := by
  induction l with
  | nil => simp [sumTime]
  | cons y ys ih =>
    simp only [List.cons_append, sumTime]
    rw [show ys.append [x] = ys ++ [x] from rfl, ih]
    ring

theorem sumTime_replaceFirst {eid : Nat} {pr : LessonProgress → Bool}
    {l : List LessonProgress} {a : LessonProgress} (x : LessonProgress)
    (h : l.find? pr = some a) (ha : a.enrollment_id = eid)
    (hx : x.enrollment_id = eid) :
    sumTime eid (replaceFirst pr x l) =
      sumTime eid l - a.time_spent_minutes + x.time_spent_minutes := by
  induction l with
  | nil => simp at h
  | cons y ys ih =>
    by_cases hy : pr y = true
    · rw [List.find?_cons_of_pos _ hy] at h
      injection h with h2
      subst h2
      simp only [replaceFirst, if_pos hy, sumTime, if_pos hx, if_pos ha]
      ring
    · rw [List.find?_cons_of_neg _ hy] at h
      simp only [replaceFirst, if_neg hy, sumTime]
      rw [ih h]
      ring

theorem sumTime_eq_zero {eid : Nat} {l : List LessonProgress}
    (h : ∀ p ∈ l, p.enrollment_id ≠ eid) : sumTime eid l = 0 := by
  induction l with
  | nil => rfl
  | cons y ys ih =>
    simp only [sumTime]
    rw [if_neg (h y (List.mem_cons_self y ys)),
      ih (fun p hp => h p (List.mem_cons_of_mem _ hp))]
    ring

theorem update_progress_id (e : Enrollment) (T C now : Nat) :
    ((e.update_progress T C now).1).id = e.id := by
  simp only [Enrollment.update_progress]
  split_ifs <;> rfl

theorem update_progress_total (e : Enrollment) (T C now : Nat) :
    ((e.update_progress T C now).1).total_time_spent_minutes =
      e.total_time_spent_minutes := by
  simp only [Enrollment.update_progress]
  split_ifs <;> rfl

theorem update_progress_zero (e : Enrollment) (C now : Nat) :
    (e.update_progress 0 C now).1 = e := by
  simp only [Enrollment.update_progress]
  rfl

theorem update_progress_pos (e : Enrollment) {T : Nat} (C now : Nat)
    (hT : 0 < T) :
    ((e.update_progress T C now).1).progress_percentage = roundPct C T := by
  simp only [Enrollment.update_progress, if_pos hT]
  split_ifs <;> rfl

theorem update_progress_invariant (e : Enrollment) (T C now : Nat)
    (h : enrollmentInvariant e) :
    enrollmentInvariant ((e.update_progress T C now).1) := by
  simp only [Enrollment.update_progress]
  split_ifs with hT hp
  · exact ⟨⟨fun _ => hp, fun _ => rfl⟩, ⟨fun _ => rfl, fun _ => by simp⟩⟩
  · refine ⟨⟨fun hc => ?_, fun hc => absurd hc hp⟩, ⟨fun hc => ?_, fun hc => ?_⟩⟩
    · exact Bool.noConfusion hc
    · exact absurd rfl hc
    · exact Bool.noConfusion hc
  · exact h

theorem timeTruthy_false {t : Option Int} (h : timeTruthy t = false) :
    t.getD 0 = 0 := by
  cases t with
  | none => rfl
  | some v =>
    simp only [timeTruthy, bne_iff_ne, ne_eq, decide_eq_false_iff_not,
      Decidable.not_not] at h
    simpa using h

theorem enrollmentRowAfter_id (db : DB) (e : Enrollment) (lid : Nat)
    (c : Bool) (t : Option Int) (now : Nat) :
    (CRUDLessonProgress.enrollmentRowAfter db e lid c t now).id = e.id := by
  simp only [CRUDLessonProgress.enrollmentRowAfter]
  split_ifs <;> simp [update_progress_id]

theorem enrollmentRowAfter_total (db : DB) (e : Enrollment) (lid : Nat)
    (c : Bool) (t : Option Int) (now : Nat) :
    (CRUDLessonProgress.enrollmentRowAfter db e lid c t now).total_time_spent_minutes =
      e.total_time_spent_minutes + t.getD 0 := by
  simp only [CRUDLessonProgress.enrollmentRowAfter]
  split_ifs with ht
  · simp [update_progress_total]
  · rw [timeTruthy_false (Bool.not_eq_true _ ▸ eq_false_of_ne_true ht)]
    simp [update_progress_total]

theorem enrollmentRowAfter_progress (db : DB) (e : Enrollment) (lid : Nat)
    (c : Bool) (t : Option Int) (now : Nat) :
    (CRUDLessonProgress.enrollmentRowAfter db e lid c t now).progress_percentage =
      ((e.update_progress (countPublishedLessons db e.course_id)
        (countCompletedProgresses db.progresses e.id) now).1).progress_percentage := by
  simp only [CRUDLessonProgress.enrollmentRowAfter]
  split_ifs <;> rfl

theorem enrollmentRowAfter_completed (db : DB) (e : Enrollment) (lid : Nat)
    (c : Bool) (t : Option Int) (now : Nat) :
    (CRUDLessonProgress.enrollmentRowAfter db e lid c t now).completed =
      ((e.update_progress (countPublishedLessons db e.course_id)
        (countCompletedProgresses db.progresses e.id) now).1).completed := by
  simp only [CRUDLessonProgress.enrollmentRowAfter]
  split_ifs <;> rfl

theorem enrollmentRowAfter_completed_at (db : DB) (e : Enrollment) (lid : Nat)
    (c : Bool) (t : Option Int) (now : Nat) :
    (CRUDLessonProgress.enrollmentRowAfter db e lid c t now).completed_at =
      ((e.update_progress (countPublishedLessons db e.course_id)
        (countCompletedProgresses db.progresses e.id) now).1).completed_at := by
  simp only [CRUDLessonProgress.enrollmentRowAfter]
  split_ifs <;> rfl

theorem enrollmentRowAfter_invariant (db : DB) (e : Enrollment) (lid : Nat)
    (c : Bool) (t : Option Int) (now : Nat) (h : enrollmentInvariant e) :
    enrollmentInvariant (CRUDLessonProgress.enrollmentRowAfter db e lid c t now) := by
  have h1 := update_progress_invariant e (countPublishedLessons db e.course_id)
    (countCompletedProgresses db.progresses e.id) now h
  unfold enrollmentInvariant at h1 ⊢
  rw [enrollmentRowAfter_progress, enrollmentRowAfter_completed,
    enrollmentRowAfter_completed_at]
  exact h1

theorem create_existing {db : DB} {uid : String} {cid : Nat} (now : Nat)
    {ex : Enrollment} (h : get_by_user_and_course db uid cid = some ex) :
    CRUDEnrollment.create db uid cid now = (db, ex) := by
  simp only [CRUDEnrollment.create, CRUDEnrollment.createStates, h]
  rfl

theorem createStates_fresh {db : DB} {uid : String} {cid : Nat} (now : Nat)
    (h : get_by_user_and_course db uid cid = none) :
    (CRUDEnrollment.createStates db uid cid now).2 =
      { id := db.nextEnrollmentId, user_id := uid, course_id := cid,
        enrolled_at := now, completed := false, progress_percentage := 0,
        last_accessed_at := now, completed_at := none,
        total_time_spent_minutes := 0, last_lesson_id := none } := by
  simp only [CRUDEnrollment.createStates, h]
  cases hfc : findCourse
      ({ db with
         enrollments := db.enrollments ++
           [{ id := db.nextEnrollmentId, user_id := uid, course_id := cid,
              enrolled_at := now, completed := false, progress_percentage := 0,
              last_accessed_at := now, completed_at := none,
              total_time_spent_minutes := 0, last_lesson_id := none }],
         nextEnrollmentId := db.nextEnrollmentId + 1 }) cid <;>
    simp_all

theorem create_fresh_enrollments {db : DB} {uid : String} {cid : Nat}
    (now : Nat) (h : get_by_user_and_course db uid cid = none) :
    ((CRUDEnrollment.create db uid cid now).1).enrollments =
      db.enrollments ++ [(CRUDEnrollment.createStates db uid cid now).2] ∧
    (CRUDEnrollment.create db uid cid now).2 =
      (CRUDEnrollment.createStates db uid cid now).2 := by
  simp only [CRUDEnrollment.create, CRUDEnrollment.createStates, h]
  cases hfc : findCourse
      ({ db with
         enrollments := db.enrollments ++
           [{ id := db.nextEnrollmentId, user_id := uid, course_id := cid,
              enrolled_at := now, completed := false, progress_percentage := 0,
              last_accessed_at := now, completed_at := none,
              total_time_spent_minutes := 0, last_lesson_id := none }],
         nextEnrollmentId := db.nextEnrollmentId + 1 }) cid <;>
    simp_all

theorem bumpMetric_course_id (m : CourseDailyMetric) (ty : EventType) :
    (bumpMetric m ty).course_id = m.course_id := by
  cases ty <;> rfl

theorem bumpMetric_metric_date (m : CourseDailyMetric) (ty : EventType) :
    (bumpMetric m ty).metric_date = m.metric_date := by
  cases ty <;> rfl

theorem bumpMetric_ne (m : CourseDailyMetric) (ty : EventType) :
    bumpMetric m ty ≠ m := by
  cases ty with
  | course_view =>
    exact fun hc =>
      Nat.succ_ne_self _ (congrArg CourseDailyMetric.views_count hc)
  | course_enroll =>
    exact fun hc =>
      Nat.succ_ne_self _ (congrArg CourseDailyMetric.enrollments_count hc)

theorem record_event_true_db (db : AnalyticsDB) (cache : List String)
    (cid : Nat) (uid role : String) (day : Nat) (ty : EventType)
    (o1 o2 : Bool) :
    (record_event db cache cid uid role day ty true o1 o2).1 =
      { events := db.events ++ [mkEvent db cid uid role ty],
        metrics := metricsAfterEvent db cid day ty,
        nextEventId := db.nextEventId + 1 } := rfl

theorem record_event_false_db (db : AnalyticsDB) (cache : List String)
    (cid : Nat) (uid role : String) (day : Nat) (ty : EventType)
    (o1 o2 : Bool) :
    (record_event db cache cid uid role day ty false o1 o2).1 = db := rfl

theorem metricsAfterEvent_some {db : AnalyticsDB} {cid day : Nat}
    {m : CourseDailyMetric} (h : findMetric db cid day = some m)
    (ty : EventType) :
    metricsAfterEvent db cid day ty =
      replaceFirst (fun x => x.course_id == cid && x.metric_date == day)
        (bumpMetric m ty) db.metrics := by
  unfold metricsAfterEvent
  rw [h]

theorem metricsAfterEvent_none {db : AnalyticsDB} {cid day : Nat}
    (h : findMetric db cid day = none) (ty : EventType) :
    metricsAfterEvent db cid day ty =
      db.metrics ++ [bumpMetric (⟨cid, day, 0, 0⟩ : CourseDailyMetric) ty] := by
  unfold metricsAfterEvent
  rw [h]

theorem record_event_metrics_some {db : AnalyticsDB} {cid day : Nat}
    {m : CourseDailyMetric} (h : findMetric db cid day = some m)
    (cache : List String) (uid role : String) (ty : EventType)
    (o1 o2 : Bool) :
    findMetric (record_event db cache cid uid role day ty true o1 o2).1
      cid day = some (bumpMetric m ty) := by
  have hm := List.find?_some h
  have hp : ((fun x : CourseDailyMetric =>
      x.course_id == cid && x.metric_date == day) (bumpMetric m ty)) = true := by
    simp only [bumpMetric_course_id, bumpMetric_metric_date]
    exact hm
  rw [record_event_true_db]
  show List.find? _ (metricsAfterEvent db cid day ty) = _
  rw [metricsAfterEvent_some h ty]
  exact replaceFirst_find? _ h hp

theorem record_event_metrics_none {db : AnalyticsDB} {cid day : Nat}
    (h : findMetric db cid day = none)
    (cache : List String) (uid role : String) (ty : EventType)
    (o1 o2 : Bool) :
    findMetric (record_event db cache cid uid role day ty true o1 o2).1
      cid day = some (bumpMetric (⟨cid, day, 0, 0⟩ : CourseDailyMetric) ty) := by
  have hp : ((fun x : CourseDailyMetric =>
      x.course_id == cid && x.metric_date == day)
        (bumpMetric (⟨cid, day, 0, 0⟩ : CourseDailyMetric) ty)) = true := by
    simp [bumpMetric_course_id, bumpMetric_metric_date]
  rw [record_event_true_db]
  show List.find? _ (metricsAfterEvent db cid day ty) = _
  rw [metricsAfterEvent_none h ty, find?_append_singleton _ h, if_pos hp]

theorem record_events_counts {cid day : Nat} :
    ∀ (calls : List (EventType × String × String)) (db : AnalyticsDB)
      (m : CourseDailyMetric), findMetric db cid day = some m →
    ∃ m', findMetric (record_events db cid day calls) cid day = some m' ∧
      m'.views_count = m.views_count +
        calls.countP (fun c => c.1 == EventType.course_view) ∧
      m'.enrollments_count = m.enrollments_count +
        calls.countP (fun c => c.1 == EventType.course_enroll) := by
  intro calls
  induction calls with
  | nil =>
    intro db m h
    exact ⟨m, h, by simp, by simp⟩
  | cons c rest ih =>
    intro db m h
    have h1 := record_event_metrics_some h [] c.2.1 c.2.2 c.1 true true
    obtain ⟨m', hm', hv, he⟩ := ih _ _ h1
    refine ⟨m', by simpa [record_events] using hm', ?_, ?_⟩
    · rw [hv]
      cases hty : c.1 <;> simp [bumpMetric, List.countP_cons, hty] <;> omega
    · rw [he]
      cases hty : c.1 <;> simp [bumpMetric, List.countP_cons, hty] <;> omega

theorem metricsAfterEvent_ne (db : AnalyticsDB) (cid day : Nat)
    (ty : EventType) : metricsAfterEvent db cid day ty ≠ db.metrics := by
  cases hf : findMetric db cid day with
  | some m =>
    rw [metricsAfterEvent_some hf ty]
    exact replaceFirst_ne hf (bumpMetric_ne m ty)
  | none =>
    rw [metricsAfterEvent_none hf ty]
    intro hc
    have hlen := congrArg List.length hc
    simp at hlen

/- ===================== Claim theorems ===================== -/

/-- C3: for a record_event call with event type view or enroll, an absent
CourseDailyMetric row for (course, today) is created with both counters 0
before incrementing; views_count is incremented on a view, otherwise
enrollments_count is incremented; consequently any sequence of record_event
calls for one (course, day) starting from no metric row ends with
views_count equal to the number of view events and enrollments_count equal
to the number of enroll events; in particular two views and one enroll give
(2, 1). -/
theorem C3_record_event_counters :
    (∀ (db : AnalyticsDB) (cache : List String) (cid : Nat)
       (uid role : String) (day : Nat) (ty : EventType) (o1 o2 : Bool),
       findMetric db cid day = none →
       findMetric (record_event db cache cid uid role day ty true o1 o2).1
         cid day =
         some (bumpMetric (⟨cid, day, 0, 0⟩ : CourseDailyMetric) ty)) ∧
    (∀ (db : AnalyticsDB) (cid day : Nat)
       (calls : List (EventType × String × String)),
       findMetric db cid day = none →
       metricCounts (record_events db cid day calls) cid day =
         (calls.countP (fun c => c.1 == EventType.course_view),
          calls.countP (fun c => c.1 == EventType.course_enroll))) ∧
    metricCounts (record_events C3db 1 7 C3calls) 1 7 = (2, 1) := by
  refine ⟨?_, ?_, by rfl⟩
  · intro db cache cid uid role day ty o1 o2 h
    exact record_event_metrics_none h cache uid role ty o1 o2
  · intro db cid day calls h
    cases calls with
    | nil =>
      simp only [record_events, metricCounts, h, List.countP_nil]
    | cons c rest =>
      have h1 := record_event_metrics_none h [] c.2.1 c.2.2 c.1 true true
      obtain ⟨m', hm', hv, he⟩ := record_events_counts rest _ _ h1
      have hunf : record_events db cid day (c :: rest) =
          record_events
            (record_event db [] cid c.2.1 c.2.2 day c.1 true true true).1
            cid day rest := rfl
      rw [hunf]
      unfold metricCounts
      rw [hm']
      rw [Prod.mk.injEq]
      refine ⟨?_, ?_⟩
      · rw [hv]
        cases hty : c.1 <;> simp [bumpMetric, List.countP_cons, hty] <;> omega
      · rw [he]
        cases hty : c.1 <;> simp [bumpMetric, List.countP_cons, hty] <;> omega

/-- C3 witness: the sequence part applied to the concrete two-views-one-
enroll run on the empty analytics database. -/
theorem C3_witness :
    findMetric C3db 1 7 = none ∧
    metricCounts (record_events C3db 1 7 C3calls) 1 7 =
      (C3calls.countP (fun c => c.1 == EventType.course_view),
       C3calls.countP (fun c => c.1 == EventType.course_enroll)) :=
  ⟨by rfl, C3_record_event_counters.2.1 C3db 1 7 C3calls (by rfl)⟩

/-- C4: the event insert and the counter mutation of record_event commit
atomically (one is durably applied iff the other is), and failures of the
subsequent cache invalidations change neither the committed state nor the
returned event — the recorded event is never failed or rolled back by a
cache error. -/
theorem C4_record_event_atomic_cache_safe :
    ∀ (db : AnalyticsDB) (cache : List String) (cid : Nat)
      (uid role : String) (day : Nat) (ty : EventType) (ck o1 o2 : Bool),
      (((record_event db cache cid uid role day ty ck o1 o2).1.events =
          db.events ++ [mkEvent db cid uid role ty]) ↔
        ((record_event db cache cid uid role day ty ck o1 o2).1.metrics =
          metricsAfterEvent db cid day ty)) ∧
      (record_event db cache cid uid role day ty ck o1 o2).1 =
        (record_event db cache cid uid role day ty ck true true).1 ∧
      (record_event db cache cid uid role day ty ck o1 o2).2.2 =
        (record_event db cache cid uid role day ty ck true true).2.2 ∧
      (ck = true →
        ((record_event db cache cid uid role day ty ck o1 o2).2.2).isSome =
          true) := by
  intro db cache cid uid role day ty ck o1 o2
  cases ck with
  | false =>
    refine ⟨?_, rfl, rfl, fun hc => Bool.noConfusion hc⟩
    rw [record_event_false_db]
    constructor
    · intro hev
      exfalso
      have hlen := congrArg List.length hev
      simp at hlen
    · intro hmet
      exact absurd hmet.symm (metricsAfterEvent_ne db cid day ty)
  | true =>
    exact ⟨Iff.intro (fun _ => rfl) (fun _ => rfl), rfl, rfl, fun _ => rfl⟩

/-- C4 witness: with a committed event and both cache deletes failing, the
call still returns the recorded event. -/
theorem C4_witness :
    ((record_event C3db [] 1 "u1" "learner" 7 EventType.course_view
      true false false).2.2).isSome = true :=
  (C4_record_event_atomic_cache_safe C3db [] 1 "u1" "learner" 7
    EventType.course_view true false false).2.2.2 rfl

theorem update_lesson_progress_enrollments (db : DB) (e : Enrollment)
    (lid : Nat) (c : Bool) (t : Option Int) (now : Nat) :
    ((CRUDLessonProgress.update_lesson_progress db e lid c t now).1).enrollments =
      replaceFirst (fun x => x.id == e.id)
        (CRUDLessonProgress.enrollmentRowAfter db e lid c t now)
        db.enrollments := rfl

theorem update_lesson_progress_progresses (db : DB) (e : Enrollment)
    (lid : Nat) (c : Bool) (t : Option Int) (now : Nat) :
    ((CRUDLessonProgress.update_lesson_progress db e lid c t now).1).progresses =
      CRUDLessonProgress.progressesAfter db e lid c t now := rfl

/-- C1 (code bug): the claimed rollup — progress_percentage equal to
round(100 * completed_lessons / total_lessons, 2) over the enrollment's
LessonProgress rows after the call, with the 2-published-lesson scenario
yielding 50.0 then 100.0 with completed = true — does not hold of the
program.  The session is created with autoflush=False (database.py) and
update_lesson_progress issues no flush before its count queries, so
completed_lessons is counted from the pre-call committed rows and the
rollup lags one call behind: completing lesson 1 stores 0.0 % and
completing lesson 2 stores 50.0 %, completed never becoming true. -/
theorem C1_stale_rollup :
    (C1e1.progress_percentage = 0 ∧ C1e1.completed = false ∧
     ¬ C1e1.progress_percentage = 5000) ∧
    (C1e2.progress_percentage = 5000 ∧ C1e2.completed = false ∧
     ¬ C1e2.progress_percentage = 10000) := by
  exact ⟨⟨by decide, by decide, by decide⟩, ⟨by decide, by decide, by decide⟩⟩

theorem create_many_existing {db : DB} {uid : String} {cid : Nat}
    {r : Enrollment} (h : get_by_user_and_course db uid cid = some r) :
    ∀ nows : List Nat,
      create_many db uid cid nows = (db, List.replicate nows.length r) := by
  intro nows
  induction nows with
  | nil => rfl
  | cons n rest ih =>
    simp only [create_many, create_existing n h, ih, List.length_cons,
      List.replicate_succ]

/-- C2: enrollment create is idempotent — an existing (user, course) row is
returned unchanged with no error and no state mutation, and any N ≥ 1
sequential enroll calls leave exactly one matching Enrollment row, with all
calls returning rows of one identical id. -/
theorem C2_enroll_idempotent :
    (∀ (db : DB) (uid : String) (cid : Nat) (now : Nat) (ex : Enrollment),
      get_by_user_and_course db uid cid = some ex →
      CRUDEnrollment.create db uid cid now = (db, ex)) ∧
    (∀ (db : DB) (uid : String) (cid : Nat) (nows : List Nat),
      db.enrollments.countP
        (fun e => e.user_id == uid && e.course_id == cid) ≤ 1 →
      nows ≠ [] →
      ((create_many db uid cid nows).1).enrollments.countP
        (fun e => e.user_id == uid && e.course_id == cid) = 1 ∧
      ∀ x ∈ (create_many db uid cid nows).2,
        ∀ y ∈ (create_many db uid cid nows).2, x.id = y.id) := by
  constructor
  · intro db uid cid now ex h
    exact create_existing now h
  · intro db uid cid nows hcount hne
    cases hex : get_by_user_and_course db uid cid with
    | some r =>
      rw [create_many_existing hex nows]
      constructor
      · have hex2 : List.find?
            (fun e : Enrollment => e.user_id == uid && e.course_id == cid)
            db.enrollments = some r := hex
        have hmem : r ∈ db.enrollments := List.mem_of_find?_eq_some hex2
        have hp := List.find?_some hex2
        have hpos : 0 < db.enrollments.countP
            (fun e => e.user_id == uid && e.course_id == cid) :=
          List.countP_pos_iff.mpr ⟨r, hmem, hp⟩
        show db.enrollments.countP
          (fun e => e.user_id == uid && e.course_id == cid) = 1
        omega
      · intro x hx y hy
        rw [List.eq_of_mem_replicate hx, List.eq_of_mem_replicate hy]
    | none =>
      cases nows with
      | nil => exact absurd rfl hne
      | cons n rest =>
        obtain ⟨henr, hret⟩ := create_fresh_enrollments n hex
        have hprow : ((CRUDEnrollment.createStates db uid cid n).2.user_id == uid &&
            (CRUDEnrollment.createStates db uid cid n).2.course_id == cid) = true := by
          rw [createStates_fresh n hex]
          simp
        have hfind1 : get_by_user_and_course
            (CRUDEnrollment.create db uid cid n).1 uid cid =
            some (CRUDEnrollment.createStates db uid cid n).2 := by
          simp only [get_by_user_and_course]
          rw [henr, find?_append_singleton _ hex]
          rw [if_pos hprow]
        have hcount0 : db.enrollments.countP
            (fun e => e.user_id == uid && e.course_id == cid) = 0 :=
          List.countP_eq_zero.mpr (List.find?_eq_none.mp hex)
        have hcount1 : ((CRUDEnrollment.create db uid cid n).1).enrollments.countP
            (fun e => e.user_id == uid && e.course_id == cid) = 1 := by
          rw [henr, List.countP_append, hcount0, List.countP_singleton,
            if_pos hprow]
        have hunf : create_many db uid cid (n :: rest) =
            ((create_many (CRUDEnrollment.create db uid cid n).1 uid cid rest).1,
             (CRUDEnrollment.create db uid cid n).2 ::
               (create_many (CRUDEnrollment.create db uid cid n).1 uid cid
                 rest).2) := rfl
        rw [hunf, create_many_existing hfind1 rest]
        refine ⟨hcount1, ?_⟩
        intro x hx y hy
        have hx1 : x.id = (CRUDEnrollment.createStates db uid cid n).2.id := by
          rcases List.mem_cons.mp hx with hx | hx
          · rw [hx, hret]
          · rw [List.eq_of_mem_replicate hx]
        have hy1 : y.id = (CRUDEnrollment.createStates db uid cid n).2.id := by
          rcases List.mem_cons.mp hy with hy | hy
          · rw [hy, hret]
          · rw [List.eq_of_mem_replicate hy]
        rw [hx1, hy1]

/-- C2 witness: two sequential enrolls of one user in one course on a fresh
database leave exactly one matching enrollment row. -/
theorem C2_witness :
    C2db.enrollments.countP
      (fun e => e.user_id == "u1" && e.course_id == 1) ≤ 1 ∧
    ((create_many C2db "u1" 1 [3, 4]).1).enrollments.countP
      (fun e => e.user_id == "u1" && e.course_id == 1) = 1 :=
  ⟨by decide,
   (C2_enroll_idempotent.2 C2db "u1" 1 [3, 4] (by decide)
     (by decide)).1⟩

/-- C5 counterexample: the generic enrollment update can set the completed
flag on a 0 %-progress enrollment, breaking "completed iff progress ≥ 100
and completed_at set iff completed" — so not every Enrollment mutator
preserves the invariant. -/
theorem C5_counterexample :
    enrollmentInvariant C5e ∧
    ¬ enrollmentInvariant (CRUDEnrollment.update C5e C5upd 5) := by
  exact ⟨by decide, by decide⟩

/-- C5 (amended): update_lesson_progress, create and record_access preserve
the invariant "completed iff progress_percentage ≥ 100.0, and completed_at
set iff completed" for every stored enrollment; the generic enrollment
update (CRUDEnrollment.update) does not preserve it. -/
theorem C5_invariant_amended :
    (∀ (db : DB) (e : Enrollment) (lid : Nat) (c : Bool) (t : Option Int)
       (now : Nat),
      enrollmentInvariant e →
      (∀ x ∈ db.enrollments, enrollmentInvariant x) →
      ∀ x ∈ ((CRUDLessonProgress.update_lesson_progress db e lid c t
          now).1).enrollments,
        enrollmentInvariant x) ∧
    (∀ (db : DB) (uid : String) (cid : Nat) (now : Nat),
      (∀ x ∈ db.enrollments, enrollmentInvariant x) →
      ∀ x ∈ ((CRUDEnrollment.create db uid cid now).1).enrollments,
        enrollmentInvariant x) ∧
    (∀ (db : DB) (eid now : Nat),
      (∀ x ∈ db.enrollments, enrollmentInvariant x) →
      ∀ x ∈ ((CRUDEnrollment.record_access db eid now).1).enrollments,
        enrollmentInvariant x) := by
  refine ⟨?_, ?_, ?_⟩
  · intro db e lid c t now he hall x hx
    rw [update_lesson_progress_enrollments] at hx
    rcases mem_replaceFirst hx with hx | hx
    · exact hall x hx
    · rw [hx]
      exact enrollmentRowAfter_invariant db e lid c t now he
  · intro db uid cid now hall x hx
    cases hex : get_by_user_and_course db uid cid with
    | some r =>
      rw [create_existing now hex] at hx
      exact hall x hx
    | none =>
      obtain ⟨henr, _⟩ := create_fresh_enrollments now hex
      rw [henr] at hx
      rcases List.mem_append.mp hx with hx | hx
      · exact hall x hx
      · have hx2 : x = (CRUDEnrollment.createStates db uid cid now).2 := by
          simpa using hx
        rw [hx2, createStates_fresh now hex]
        simp [enrollmentInvariant]
  · intro db eid now hall x hx
    unfold CRUDEnrollment.record_access at hx
    cases hfe : findEnrollment db.enrollments eid with
    | none =>
      rw [hfe] at hx
      exact hall x hx
    | some e =>
      rw [hfe] at hx
      rcases mem_replaceFirst hx with hx | hx
      · exact hall x hx
      · rw [hx]
        have hfe2 : List.find? (fun x => x.id == eid) db.enrollments =
            some e := hfe
        have hinv := hall e (List.mem_of_find?_eq_some hfe2)
        exact hinv
/-- C5 witness: the create branch applied to the fresh database. -/
theorem C5_witness :
    (∀ x ∈ C2db.enrollments, enrollmentInvariant x) ∧
    ∀ x ∈ ((CRUDEnrollment.create C2db "u1" 1 3).1).enrollments,
      enrollmentInvariant x :=
  ⟨by decide, C5_invariant_amended.2.1 C2db "u1" 1 3 (by decide)⟩

theorem update_lesson_progress_time_sync (db : DB) (e : Enrollment)
    (lid : Nat) (c : Bool) (t : Option Int) (now : Nat)
    (hfe : findEnrollment db.enrollments e.id = some e)
    (hsum : e.total_time_spent_minutes = sumTime e.id db.progresses) :
    findEnrollment
        ((CRUDLessonProgress.update_lesson_progress db e lid c t
          now).1).enrollments e.id =
      some (CRUDLessonProgress.enrollmentRowAfter db e lid c t now) ∧
    (CRUDLessonProgress.enrollmentRowAfter db e lid c t
        now).total_time_spent_minutes =
      sumTime e.id
        ((CRUDLessonProgress.update_lesson_progress db e lid c t
          now).1).progresses := by
  constructor
  · rw [update_lesson_progress_enrollments]
    exact replaceFirst_find? _ hfe (by simp [enrollmentRowAfter_id])
  · rw [update_lesson_progress_progresses, enrollmentRowAfter_total, hsum]
    unfold CRUDLessonProgress.progressesAfter
    cases hf : get_lesson_progress db e.id lid with
    | none =>
      have hrow : (CRUDLessonProgress.progressRowAfter db e lid c t
            now).enrollment_id = e.id ∧
          (CRUDLessonProgress.progressRowAfter db e lid c t
            now).time_spent_minutes = t.getD 0 := by
        unfold CRUDLessonProgress.progressRowAfter
        rw [hf]
        exact ⟨rfl, rfl⟩
      rw [sumTime_append, if_pos hrow.1, hrow.2]
    | some p =>
      have hp := List.find?_some
        (show List.find?
          (fun x => x.enrollment_id == e.id && x.lesson_id == lid)
          db.progresses = some p from hf)
      simp only [Bool.and_eq_true, beq_iff_eq] at hp
      have hrow : (CRUDLessonProgress.progressRowAfter db e lid c t
            now).enrollment_id = p.enrollment_id ∧
          (CRUDLessonProgress.progressRowAfter db e lid c t
            now).time_spent_minutes = p.time_spent_minutes + t.getD 0 := by
        unfold CRUDLessonProgress.progressRowAfter
        rw [hf]
        exact ⟨rfl, rfl⟩
      rw [sumTime_replaceFirst _ hf hp.1 (hrow.1.trans hp.1), hrow.2]
      omega

theorem apply_progress_calls_sync :
    ∀ (calls : List ProgressCall) (db : DB) (eid : Nat) (e0 : Enrollment),
      findEnrollment db.enrollments eid = some e0 →
      e0.total_time_spent_minutes = sumTime eid db.progresses →
      ∃ e1, findEnrollment
          (apply_progress_calls db eid calls).enrollments eid = some e1 ∧
        e1.total_time_spent_minutes =
          sumTime eid (apply_progress_calls db eid calls).progresses := by
  intro calls
  induction calls with
  | nil =>
    intro db eid e0 h hsum
    exact ⟨e0, h, hsum⟩
  | cons cl rest ih =>
    intro db eid e0 h hsum
    have heid : e0.id = eid := by
      have hp := List.find?_some
        (show List.find? (fun x => x.id == eid) db.enrollments = some e0
          from h)
      simpa using hp
    subst heid
    have hunf : apply_progress_calls db e0.id (cl :: rest) =
        apply_progress_calls
          (CRUDLessonProgress.update_lesson_progress db e0 cl.lesson_id
            cl.completed cl.time_spent_minutes cl.now).1 e0.id rest := by
      show (match findEnrollment db.enrollments e0.id with
        | some e =>
          apply_progress_calls
            (CRUDLessonProgress.update_lesson_progress db e cl.lesson_id
              cl.completed cl.time_spent_minutes cl.now).1 e0.id rest
        | none => apply_progress_calls db e0.id rest) =
        apply_progress_calls
          (CRUDLessonProgress.update_lesson_progress db e0 cl.lesson_id
            cl.completed cl.time_spent_minutes cl.now).1 e0.id rest
      rw [h]
    obtain ⟨hfind, htot⟩ := update_lesson_progress_time_sync db e0
      cl.lesson_id cl.completed cl.time_spent_minutes cl.now h hsum
    rw [hunf]
    exact ih _ e0.id _ hfind htot

/-- C6: after any sequence of sequential update_lesson_progress calls on an
enrollment starting at total_time_spent_minutes = 0 with no LessonProgress
rows, the enrollment's total_time_spent_minutes equals the sum of
time_spent_minutes over its LessonProgress rows (each call adds the same
amount — an absent time argument counting as 0 — to both accumulators). -/
theorem C6_time_rollup_sync :
    ∀ (db : DB) (eid : Nat) (e0 : Enrollment) (calls : List ProgressCall),
      findEnrollment db.enrollments eid = some e0 →
      e0.total_time_spent_minutes = 0 →
      (∀ p ∈ db.progresses, p.enrollment_id ≠ eid) →
      ∃ e1, findEnrollment
          (apply_progress_calls db eid calls).enrollments eid = some e1 ∧
        e1.total_time_spent_minutes =
          sumTime eid (apply_progress_calls db eid calls).progresses :=
  fun db eid e0 calls h h0 hnone =>
    apply_progress_calls_sync calls db eid e0 h
      (by rw [h0, sumTime_eq_zero hnone])

/-- C6 witness: the two-lesson scenario run (10 then 5 minutes). -/
theorem C6_witness :
    ∃ e1, findEnrollment
        (apply_progress_calls C1db 1
          [⟨10, true, some 10, 1⟩, ⟨11, true, some 5, 2⟩]).enrollments 1 =
        some e1 ∧
      e1.total_time_spent_minutes =
        sumTime 1
          (apply_progress_calls C1db 1
            [⟨10, true, some 10, 1⟩, ⟨11, true, some 5, 2⟩]).progresses :=
  C6_time_rollup_sync C1db 1 C1e0
    [⟨10, true, some 10, 1⟩, ⟨11, true, some 5, 2⟩]
    (by decide) (by decide) (by decide)

/-- C7: the create race is not recovered internally — when a concurrent
winner commits the same (user, course) row between the duplicate check and
the insert's commit, the uniqueness violation escapes CRUDEnrollment.create
(which has no handler for it) and enroll_in_course surfaces it to the
caller as an HTTP 500 error, evaluated here at a concrete race. -/
theorem C7_race_surfaces_error :
    enroll_in_course C7db "u1" "student" 1 4 (some C7winner) =
      Except.error (500,
        "Failed to enroll in course: IntegrityError: duplicate key value violates unique constraint unique_user_course_enrollment") := by
  rfl

/-- C8 counterexample: update_lesson_progress with completed = false flips
an already-completed LessonProgress row back to false, so the flag is not
monotone. -/
theorem C8_counterexample :
    (get_lesson_progress C8db 1 10 = some C8p ∧ C8p.completed = true) ∧
    (CRUDLessonProgress.update_lesson_progress C8db C1e0 10 false none
      7).2.1.completed = false := by
  exact ⟨⟨by decide, by decide⟩, by decide⟩

/-- C8 (amended): on every update of an existing LessonProgress row the
completed flag is overwritten with the call's argument (so it can flip
true→false as well as false→true), while completed_at, once set, is never
changed. -/
theorem C8_completed_overwrite_completed_at_sticky :
    ∀ (db : DB) (e : Enrollment) (lid : Nat) (c : Bool) (t : Option Int)
      (now : Nat) (p : LessonProgress),
      get_lesson_progress db e.id lid = some p →
      (CRUDLessonProgress.update_lesson_progress db e lid c t
        now).2.1.completed = c ∧
      ∀ ts, p.completed_at = some ts →
        (CRUDLessonProgress.update_lesson_progress db e lid c t
          now).2.1.completed_at = some ts := by
  intro db e lid c t now p hp
  have h21 : (CRUDLessonProgress.update_lesson_progress db e lid c t
      now).2.1 = CRUDLessonProgress.progressRowAfter db e lid c t now := rfl
  rw [h21]
  unfold CRUDLessonProgress.progressRowAfter
  rw [hp]
  refine ⟨rfl, ?_⟩
  intro ts hts
  simp only [hts]
  simp

/-- C8 witness: completing the already-completed lesson again keeps the
flag true (and, by the theorem, completed_at untouched). -/
theorem C8_witness :
    get_lesson_progress C8db C1e0.id 10 = some C8p ∧
    (CRUDLessonProgress.update_lesson_progress C8db C1e0 10 true (some 3)
      9).2.1.completed = true :=
  ⟨by decide,
   (C8_completed_overwrite_completed_at_sticky C8db C1e0 10 true (some 3) 9
     C8p (by decide)).1⟩

/-- C9 counterexample: after the first commit of a fresh enroll the
enrollment row is already durable while the course's total_enrollments
counter is still 0 — the insert and the counter increment are not one
atomic transaction. -/
theorem C9_counterexample :
    ((CRUDEnrollment.createStates C9db "u1" 1 5).1).length = 2 ∧
    (get_by_user_and_course C9afterFirstCommit "u1" 1).isSome = true ∧
    (findCourse C9afterFirstCommit 1).map Course.total_enrollments =
      some 0 := by
  exact ⟨by decide, by decide, by decide⟩

theorem createStates_fresh_found {db : DB} {uid : String} {cid : Nat}
    {course : Course} (now : Nat)
    (hex : get_by_user_and_course db uid cid = none)
    (hc : findCourse db cid = some course) :
    CRUDEnrollment.createStates db uid cid now =
      ([{ db with
          enrollments := db.enrollments ++
            [{ id := db.nextEnrollmentId, user_id := uid, course_id := cid,
               enrolled_at := now, completed := false,
               progress_percentage := 0, last_accessed_at := now,
               completed_at := none, total_time_spent_minutes := 0,
               last_lesson_id := none }],
          nextEnrollmentId := db.nextEnrollmentId + 1 },
        { db with
          enrollments := db.enrollments ++
            [{ id := db.nextEnrollmentId, user_id := uid, course_id := cid,
               enrolled_at := now, completed := false,
               progress_percentage := 0, last_accessed_at := now,
               completed_at := none, total_time_spent_minutes := 0,
               last_lesson_id := none }],
          nextEnrollmentId := db.nextEnrollmentId + 1,
          courses := replaceFirst (fun c => c.id == cid)
            ({ course with
               total_enrollments := course.total_enrollments + 1 })
            db.courses }],
       { id := db.nextEnrollmentId, user_id := uid, course_id := cid,
         enrolled_at := now, completed := false, progress_percentage := 0,
         last_accessed_at := now, completed_at := none,
         total_time_spent_minutes := 0, last_lesson_id := none }) := by
  simp only [CRUDEnrollment.createStates, hex]
  split
  · next x heq =>
    have hx : x = course := by
      have h2 : findCourse db cid = some x := heq
      rw [hc] at h2
      exact (Option.some.inj h2).symm
    subst hx
    rfl
  · next heq =>
    have h2 : findCourse db cid = none := heq
    rw [hc] at h2
    exact Option.noConfusion h2

/-- C9 (amended): a fresh enroll creates the row with progress 0, not
completed, enrolled_at = last_accessed_at = now, and increments the
course's total_enrollments — but in a second transaction committed after
the enrollment insert's own commit: the first durable state already holds
the new row with the course counters untouched, and only the second holds
the incremented counter. -/
theorem C9_create_counter_second_commit :
    ∀ (db : DB) (uid : String) (cid : Nat) (now : Nat) (course : Course),
      get_by_user_and_course db uid cid = none →
      findCourse db cid = some course →
      (CRUDEnrollment.createStates db uid cid now).2.progress_percentage = 0 ∧
      (CRUDEnrollment.createStates db uid cid now).2.completed = false ∧
      (CRUDEnrollment.createStates db uid cid now).2.enrolled_at = now ∧
      (CRUDEnrollment.createStates db uid cid now).2.last_accessed_at = now ∧
      ((CRUDEnrollment.createStates db uid cid now).1).length = 2 ∧
      (∀ s1, ((CRUDEnrollment.createStates db uid cid now).1).head? =
          some s1 →
        get_by_user_and_course s1 uid cid =
          some (CRUDEnrollment.createStates db uid cid now).2 ∧
        s1.courses = db.courses) ∧
      (∀ s2, ((CRUDEnrollment.createStates db uid cid now).1).getLast? =
          some s2 →
        (findCourse s2 cid).map Course.total_enrollments =
          some (course.total_enrollments + 1)) := by
  intro db uid cid now course hex hc
  rw [createStates_fresh_found now hex hc]
  refine ⟨rfl, rfl, rfl, rfl, rfl, ?_, ?_⟩
  · intro s1 hs1
    have hs1e := Option.some.inj hs1
    rw [← hs1e]
    constructor
    · show List.find? _ (db.enrollments ++ [_]) = _
      rw [find?_append_singleton _ hex]
      simp
    · rfl
  · intro s2 hs2
    have hs2e := Option.some.inj hs2
    rw [← hs2e]
    have hbump : ((fun c : Course => c.id == cid)
        ({ course with
           total_enrollments := course.total_enrollments + 1 })) = true := by
      have hcid := List.find?_some
        (show List.find? (fun c : Course => c.id == cid) db.courses =
          some course from hc)
      simpa using hcid
    have hfind := replaceFirst_find?
      ({ course with total_enrollments := course.total_enrollments + 1 })
      (show List.find? (fun c : Course => c.id == cid) db.courses =
        some course from hc) hbump
    show (List.find? (fun c : Course => c.id == cid)
        (replaceFirst (fun c : Course => c.id == cid)
          ({ course with
             total_enrollments := course.total_enrollments + 1 })
          db.courses)).map Course.total_enrollments = _
    rw [hfind]
    rfl

/-- C9 witness: the two-commit shape at the concrete fresh database. -/
theorem C9_witness :
    get_by_user_and_course C9db "u1" 1 = none ∧
    (CRUDEnrollment.createStates C9db "u1" 1 5).2.progress_percentage = 0 ∧
    (CRUDEnrollment.createStates C9db "u1" 1 5).2.completed = false :=
  ⟨by decide,
   (C9_create_counter_second_commit C9db "u1" 1 5
     ⟨1, "i1", true, 0⟩ (by decide) (by decide)).1,
   (C9_create_counter_second_commit C9db "u1" 1 5
     ⟨1, "i1", true, 0⟩ (by decide) (by decide)).2.1⟩

/-- C10: delete is total and safe at its interface: for a missing
enrollment id it returns false and leaves the whole state (enrollments,
lesson progresses, course counters) unchanged; for an existing id it
returns true, the row is gone afterwards, and the course's
total_enrollments is decremented only when strictly positive, so the
counter is never driven below zero. -/
theorem C10_delete_safe :
    (∀ (db : DB) (eid : Nat),
      findEnrollment db.enrollments eid = none →
      CRUDEnrollment.delete db eid = (db, false)) ∧
    (∀ (db : DB) (eid : Nat) (e : Enrollment),
      findEnrollment db.enrollments eid = some e →
      db.enrollments.countP (fun x => x.id == eid) ≤ 1 →
      (CRUDEnrollment.delete db eid).2 = true ∧
      findEnrollment ((CRUDEnrollment.delete db eid).1).enrollments eid =
        none ∧
      (∀ course, findCourse db e.course_id = some course →
        (findCourse (CRUDEnrollment.delete db eid).1 e.course_id).map
            Course.total_enrollments =
          some (if 0 < course.total_enrollments
            then course.total_enrollments - 1
            else course.total_enrollments) ∧
        (0 ≤ course.total_enrollments →
          0 ≤ (if 0 < course.total_enrollments
            then course.total_enrollments - 1
            else course.total_enrollments)))) := by
  constructor
  · intro db eid h
    simp only [CRUDEnrollment.delete, h]
  · intro db eid e h hcount
    refine ⟨?_, ?_, ?_⟩
    · simp only [CRUDEnrollment.delete, h]
    · have henr : ((CRUDEnrollment.delete db eid).1).enrollments =
          db.enrollments.eraseP (fun x => x.id == eid) := by
        simp only [CRUDEnrollment.delete, h]
      show List.find? _ _ = none
      rw [henr]
      exact find?_eraseP_of_countP_le_one hcount
    · intro course hc
      have hcs : ((CRUDEnrollment.delete db eid).1).courses =
          (if 0 < course.total_enrollments
            then replaceFirst (fun x => x.id == e.course_id)
              ({ course with
                 total_enrollments := course.total_enrollments - 1 })
              db.courses
            else db.courses) := by
        simp only [CRUDEnrollment.delete, h, hc]
      constructor
      · show (List.find? (fun x : Course => x.id == e.course_id)
            ((CRUDEnrollment.delete db eid).1).courses).map
            Course.total_enrollments = _
        rw [hcs]
        by_cases hpos : 0 < course.total_enrollments
        · rw [if_pos hpos, if_pos hpos]
          have hbump : ((fun x : Course => x.id == e.course_id)
              ({ course with
                 total_enrollments := course.total_enrollments - 1 })) =
              true := by
            have hcid := List.find?_some
              (show List.find? (fun x : Course => x.id == e.course_id)
                db.courses = some course from hc)
            simpa using hcid
          rw [replaceFirst_find?
            ({ course with
               total_enrollments := course.total_enrollments - 1 })
            (show List.find? (fun x : Course => x.id == e.course_id)
              db.courses = some course from hc) hbump]
          rfl
        · rw [if_neg hpos, if_neg hpos]
          rw [show List.find? (fun x : Course => x.id == e.course_id)
            db.courses = some course from hc]
          rfl
      · intro hge
        split_ifs with hpos <;> omega

/-- C10 witness: deleting the one existing enrollment of C10db. -/
theorem C10_witness :
    findEnrollment C10db.enrollments 1 = some C1e0 ∧
    (CRUDEnrollment.delete C10db 1).2 = true ∧
    findEnrollment ((CRUDEnrollment.delete C10db 1).1).enrollments 1 =
      none :=
  ⟨by decide,
   (C10_delete_safe.2 C10db 1 C1e0 (by decide) (by decide)).1,
   (C10_delete_safe.2 C10db 1 C1e0 (by decide) (by decide)).2.1⟩
